import Mathlib

/-!
Shallow embedding of the image-processing core of mybranch.cpp.

An image is a 3D matrix data[height][width][channel] of int samples
(class Image, mybranch.cpp lines 11-135).  Element access in the C++
code goes through vector::operator[], which has no bounds check; an
out-of-range index is undefined behaviour.  We model every read through
an Option-valued accessor, so a transform whose loop reads outside the
grid returns none instead of a grid.  The transforms that read nothing
(the unimplemented applyBlur and rotate90 stubs) are total.

Numeric modelling: C++ int arithmetic is modelled by unbounded Int
(no sample or parameter in the claims comes near the 32-bit range, and
the clamped results all lie in [0,255]).  The grayscale formula
0.299*R + 0.587*G + 0.114*B (computed in double in the source) is
modelled exactly: all three coefficients are thousandths, so the exact
value is (299*R + 587*G + 114*B)/1000 and static_cast<int> truncation
toward zero is Int.tdiv by 1000.  At every pixel evaluated by a theorem
in this file the IEEE-double computation of the source and this exact
computation agree (checked numerically; they can differ elsewhere, e.g.
on the pixel (128,128,128), where double yields 127.999... and the
exact value is 128).  The contrast computation (float in the source) is
modelled in exact rational arithmetic; the only factor any claim
evaluates is 1.0, where float arithmetic on integer samples in [0,255]
is exact.
-/

/-- Truncation of a rational toward zero, as C++ float-to-int conversion
(static_cast<int> / implicit conversion on assignment to int). -/
def toIntTrunc (q : ℚ) : ℤ := if 0 ≤ q then ⌊q⌋ else ⌈q⌉

/-- The image data model of class Image (mybranch.cpp lines 11-14):
width, height, maxVal, channels and a 3D matrix data[height][width][channel]. -/
structure Image where
  width : Nat
  height : Nat
  channels : Nat
  maxVal : Nat
  data : List (List (List Int))
  deriving DecidableEq, Repr

/-- The blank-image constructor Image(int w, int h, int ch = 3)
(mybranch.cpp lines 26-32): maxVal = 255 and data resized to height rows
of width pixels of channels samples, all 0.  The C++ constructor performs
no validation of its arguments and cannot fail. -/
def mkImage (w h ch : Nat) : Image :=
  Image.mk w h ch 255 (List.replicate h (List.replicate w (List.replicate ch 0)))

/-- Bounds-checked read of data[y][x][c]: none models the undefined
behaviour of an out-of-range vector::operator[] access (the pixel-access
operator(), mybranch.cpp lines 50-56, performs no check). -/
def Image.get? (g : Image) (y x c : Nat) : Option Int :=
  (g.data[y]?).bind fun row => (row[x]?).bind fun px => px[c]?

/-- Total read of data[y][x][c], defaulting to 0 out of range; used only
where every index involved is known in range. -/
def Image.getD (g : Image) (y x c : Nat) : Int :=
  ((g.data.getD y []).getD x []).getD c 0

/-- Well-formedness: the data matrix has exactly height rows, each of
exactly width pixels, each of exactly channels samples.  Every image the
C++ program builds through the Image constructor has this shape. -/
abbrev Image.WF (g : Image) : Prop :=
  g.data.length = g.height ∧
    ∀ row ∈ g.data, row.length = g.width ∧ ∀ px ∈ row, px.length = g.channels

/-- Every stored sample lies in [0, 255] (the spec invariant with
maxValue = 255). -/
abbrev Image.InRange (g : Image) : Prop :=
  ∀ row ∈ g.data, ∀ px ∈ row, ∀ v ∈ px, 0 ≤ v ∧ v ≤ 255

/-- A valid grid in the sense of the spec: well-formed shape, the 8-bit
maxValue = 255 assumed throughout the transforms, samples in [0, 255]. -/
abbrev Image.Valid (g : Image) : Prop :=
  g.WF ∧ g.maxVal = 255 ∧ g.InRange

/-- Sequencing of the loop body results of a for loop running
i = 0 .. n-1, aborting at the first out-of-bounds access (none). -/
def collect {α : Type} : Nat → (Nat → Option α) → Option (List α)
  | 0, _ => some []
  | n + 1, f =>
    match f 0, collect n (fun i => f (i + 1)) with
    | some a, some l => some (a :: l)
    | _, _ => none

/-- The grayscale value of convertToGrayscale (mybranch.cpp line 160):
static_cast<int>(0.299 * R + 0.587 * G + 0.114 * B).  The coefficients
are thousandths, so the exact real value is (299R + 587G + 114B)/1000
and truncation toward zero is Int.tdiv (see the file comment on the
double computation of the source). -/
def grayVal (R G B : Int) : Int := Int.tdiv (299 * R + 587 * G + 114 * B) 1000

/-- convertToGrayscale (mybranch.cpp lines 149-166): single-channel
output of the same width and height; reads channels 0, 1, 2 of each
input pixel in row-major order. -/
def convertToGrayscale (input : Image) : Option Image :=
  (collect input.height fun y => collect input.width fun x =>
    (input.get? y x 0).bind fun R =>
      (input.get? y x 1).bind fun G =>
        (input.get? y x 2).map fun B => [grayVal R G B]).map
    fun d => Image.mk input.width input.height 1 255 d

/-- flipHorizontal (mybranch.cpp lines 178-193): the loop writes
output(y, width-1-x, c) = input(y, x, c); x runs 0 .. width-1, so each
output row is the reversal of the row of samples read in loop order. -/
def flipHorizontal (input : Image) : Option Image :=
  (collect input.height fun y =>
    (collect input.width fun x =>
      collect input.channels fun c => input.get? y x c).map List.reverse).map
    fun d => Image.mk input.width input.height input.channels 255 d

/-- flipVertical (mybranch.cpp lines 205-220): the loop writes
output(height-1-y, x, c) = input(y, x, c); y runs 0 .. height-1, so the
output is the reversal of the list of rows read in loop order. -/
def flipVertical (input : Image) : Option Image :=
  (collect input.height fun y =>
    collect input.width fun x =>
      collect input.channels fun c => input.get? y x c).map
    fun d => Image.mk input.width input.height input.channels 255 d.reverse

/-- The per-sample brightness rule (mybranch.cpp lines 242-244):
new_value = input + value, then clamp max(0, min(255, new_value)). -/
def brightVal (value v : Int) : Int := max 0 (min 255 (v + value))

/-- adjustBrightness (mybranch.cpp lines 233-251): per-sample clamp of
input + value, same dimensions, row-major loops. -/
def adjustBrightness (input : Image) (value : Int) : Option Image :=
  (collect input.height fun y => collect input.width fun x =>
    collect input.channels fun c => (input.get? y x c).map (brightVal value)).map
    fun d => Image.mk input.width input.height input.channels 255 d

/-- The per-sample contrast rule (mybranch.cpp lines 273-276):
adjusted = factor * (original - 128.0f) + 128.0f, clamped to
[0.0f, 255.0f], then assigned to int (truncation toward zero). -/
def contrastVal (factor : ℚ) (v : Int) : Int :=
  toIntTrunc (max 0 (min 255 (factor * ((v : ℚ) - 128) + 128)))

/-- adjustContrast (mybranch.cpp lines 265-287).  The source loops are
  for (x = 0; x < height; x++) for (y = 0; y < width; y++)
but index input(y, x, c) and output(y, x, c), i.e. row index y bounded
by width and column index x bounded by height.  The collect guard
performs exactly those reads, so it fails (none) whenever some read is
out of range - which, on a well-formed grid with positive dimensions
and channels, happens exactly when width differs from height.  When every
read is in range, each write stores output(y,x,c) =
contrastVal factor (input(y,x,c)): the written cells are (y, x) with
y < width and x < height, which then cover exactly the in-range cells
of the pre-allocated zero output, and unwritten cells of a degenerate
grid keep their constructor value; in either case the resulting data is
the per-cell image of contrastVal below. -/
def adjustContrast (input : Image) (factor : ℚ) : Option Image :=
  (collect input.height fun x => collect input.width fun y =>
    collect input.channels fun c => (input.get? y x c).map (contrastVal factor)).map
    fun _ => Image.mk input.width input.height input.channels 255
      ((List.range input.height).map fun y => (List.range input.width).map fun x =>
        (List.range input.channels).map fun c => contrastVal factor (input.getD y x c))

/-- applyBlur (mybranch.cpp lines 300-314): the function body is an
unimplemented TODO; it allocates the blank output of the same
dimensions and returns it unchanged, so every output sample is 0. -/
def applyBlur (input : Image) : Image :=
  mkImage input.width input.height input.channels

/-- rotate90 (mybranch.cpp lines 326-337): the pixel-copy loop is an
unimplemented TODO; the function only allocates the blank output with
width and height swapped (Image output(height, width, channels)) and
returns it, so every output sample is 0. -/
def rotate90 (input : Image) : Image :=
  mkImage input.height input.width input.channels

/-- The 4x4 test image built by createTestImage (mybranch.cpp lines
340-374): row 0 is red, green, blue, white; rows 1-3 as in the source. -/
def testImage : Image :=
  Image.mk 4 4 3 255
    [[[255, 0, 0], [0, 255, 0], [0, 0, 255], [255, 255, 255]],
     [[255, 255, 0], [255, 0, 255], [0, 255, 255], [128, 128, 128]],
     [[255, 128, 0], [128, 255, 0], [128, 0, 255], [255, 128, 128]],
     [[128, 255, 128], [128, 128, 255], [255, 255, 128], [0, 0, 0]]]

/-- A well-formed 3x3 single-channel grid, every sample 128; a blur per
the spec would give 128 at the interior pixel (1,1). -/
def blurProbe : Image :=
  Image.mk 3 3 1 255
    [[[128], [128], [128]], [[128], [128], [128]], [[128], [128], [128]]]

/-- A 1x1 single-channel grid with the sample 7, for rotate90. -/
def rotProbe : Image := Image.mk 1 1 1 255 [[[7]]]

/-- A well-formed, in-range RGB grid with width 2 and height 1: the
smallest shape on which the transposed loop bounds of adjustContrast
read out of range. -/
def rectProbe : Image := Image.mk 2 1 3 255 [[[10, 20, 30], [40, 50, 60]]]

/-- A well-formed, in-range RGB grid with width 1 and height 2 (the
other non-square orientation), for the contrast identity claim. -/
def tallProbe : Image := Image.mk 1 2 3 255 [[[1, 2, 3]], [[4, 5, 6]]]

/-- A 1x1 single-channel grid with the sample 42: a square grid on which
adjustContrast completes. -/
def squareProbe : Image := Image.mk 1 1 1 255 [[[42]]]

/-- A concrete valid 2x2 RGB grid, witness input for the flip claims. -/
def flipWitnessImg : Image :=
  Image.mk 2 2 3 255 [[[1, 2, 3], [4, 5, 6]], [[7, 8, 9], [10, 11, 12]]]

/-- A concrete valid 2x1 RGB grid, witness input for the brightness claim. -/
def brightWitnessImg : Image := Image.mk 2 1 3 255 [[[0, 128, 255], [13, 200, 77]]]

/-- A concrete valid 1x2 RGB grid, witness input for the range claim. -/
def rangeWitnessImg : Image := Image.mk 1 2 3 255 [[[5, 6, 7]], [[250, 251, 252]]]

/-- A concrete 2x2 single-channel grid, witness input for the blur
output claim. -/
def zeroWitnessImg : Image := Image.mk 2 2 1 255 [[[9], [8]], [[7], [6]]]

theorem mem_of_getElem? {α : Type} {l : List α} {i : Nat} {a : α}
    (h : l[i]? = some a) : a ∈ l := by
  obtain ⟨hi, rfl⟩ := List.getElem?_eq_some.mp h
  exact List.getElem_mem hi

theorem collect_congr {α : Type} : ∀ (n : Nat) (f g : Nat → Option α),
    (∀ i, i < n → f i = g i) → collect n f = collect n g
  | 0, _, _, _ => rfl
  | n + 1, f, g, h => by
    have h0 : f 0 = g 0 := h 0 (Nat.succ_pos n)
    have ih := collect_congr n (fun i => f (i + 1)) (fun i => g (i + 1))
      (fun i hi => h (i + 1) (Nat.succ_lt_succ hi))
    simp only [collect, h0, ih]

theorem collect_eq_map {α : Type} : ∀ (n : Nat) (f : Nat → Option α) (g : Nat → α),
    (∀ i, i < n → f i = some (g i)) → collect n f = some ((List.range n).map g)
  | 0, _, _, _ => rfl
  | n + 1, f, g, h => by
    have h0 : f 0 = some (g 0) := h 0 (Nat.succ_pos n)
    have ih := collect_eq_map n (fun i => f (i + 1)) (fun i => g (i + 1))
      (fun i hi => h (i + 1) (Nat.succ_lt_succ hi))
    simp [collect, h0, ih, List.range_succ_eq_map, List.map_map, Function.comp_def]

theorem map_getD_range_comp {α β : Type} (d : α) (g : α → β) : ∀ (l : List α),
    (List.range l.length).map (fun i => g (l.getD i d)) = l.map g
  | [] => rfl
  | a :: t => by
    have ih := map_getD_range_comp d g t
    simp only [List.length_cons, List.range_succ_eq_map, List.map_cons, List.map_map,
      List.getD_cons_zero, Function.comp_def, List.getD_cons_succ]
    simpa using ih

theorem map_getD_range {α : Type} (d : α) (l : List α) :
    (List.range l.length).map (fun i => l.getD i d) = l := by
  have := map_getD_range_comp d id l
  simpa using this

theorem collect_mem {α : Type} : ∀ (n : Nat) (f : Nat → Option α) (l : List α),
    collect n f = some l → ∀ a ∈ l, ∃ i, i < n ∧ f i = some a
  | 0, f, l, h => by
    simp only [collect, Option.some.injEq] at h
    subst h
    intro a ha
    simp at ha
  | n + 1, f, l, h => by
    intro a ha
    cases h0 : f 0 with
    | none => simp [collect, h0] at h
    | some b =>
      cases hrest : collect n (fun i => f (i + 1)) with
      | none => simp [collect, h0, hrest] at h
      | some t =>
        simp only [collect, h0, hrest, Option.some.injEq] at h
        subst h
        rcases List.mem_cons.mp ha with rfl | hat
        · exact ⟨0, Nat.succ_pos n, h0⟩
        · obtain ⟨i, hi, hfi⟩ := collect_mem n (fun i => f (i + 1)) t hrest a hat
          exact ⟨i + 1, Nat.succ_lt_succ hi, hfi⟩

theorem get?_mem (G : Image) (y x c : Nat) (v : Int) (h : G.get? y x c = some v) :
    ∃ row ∈ G.data, ∃ px ∈ row, v ∈ px := by
  unfold Image.get? at h
  obtain ⟨row, hrow, h⟩ := Option.bind_eq_some.mp h
  obtain ⟨px, hpx, h⟩ := Option.bind_eq_some.mp h
  exact ⟨row, mem_of_getElem? hrow, px, mem_of_getElem? hpx, mem_of_getElem? h⟩

theorem toIntTrunc_intCast (v : Int) : toIntTrunc (v : ℚ) = v := by
  rcases le_or_lt 0 (v : ℚ) with h | h
  · rw [toIntTrunc, if_pos h, Int.floor_intCast]
  · rw [toIntTrunc, if_neg (not_le.mpr h), Int.ceil_intCast]

theorem toIntTrunc_range (q : ℚ) (h0 : 0 ≤ q) (h255 : q ≤ 255) :
    0 ≤ toIntTrunc q ∧ toIntTrunc q ≤ 255 := by
  rw [toIntTrunc, if_pos h0]
  constructor
  · exact Int.le_floor.mpr (by exact_mod_cast h0)
  · have h1 : ⌊q⌋ ≤ ⌊(255 : ℚ)⌋ := Int.floor_le_floor h255
    have h2 : ((255 : ℚ)) = ((255 : ℤ) : ℚ) := by norm_num
    rw [h2, Int.floor_intCast] at h1
    exact h1

theorem brightVal_range (value v : Int) : 0 ≤ brightVal value v ∧ brightVal value v ≤ 255 := by
  unfold brightVal
  omega

theorem brightVal_zero (v : Int) (h0 : 0 ≤ v) (h1 : v ≤ 255) : brightVal 0 v = v := by
  unfold brightVal
  omega

theorem grayVal_range (R G B : Int) (hR0 : 0 ≤ R) (hR1 : R ≤ 255) (hG0 : 0 ≤ G)
    (hG1 : G ≤ 255) (hB0 : 0 ≤ B) (hB1 : B ≤ 255) :
    0 ≤ grayVal R G B ∧ grayVal R G B ≤ 255 := by
  unfold grayVal
  rw [Int.tdiv_eq_ediv (by omega) (by omega)]
  omega

theorem contrastVal_range (factor : ℚ) (v : Int) :
    0 ≤ contrastVal factor v ∧ contrastVal factor v ≤ 255 := by
  unfold contrastVal
  exact toIntTrunc_range _ (le_max_left 0 _)
    (max_le (by norm_num) (min_le_left 255 _))

theorem contrastVal_one (v : Int) (h0 : 0 ≤ v) (h1 : v ≤ 255) : contrastVal 1 v = v := by
  have h2 : (1 : ℚ) * ((v : ℚ) - 128) + 128 = (v : ℚ) := by ring
  rw [contrastVal, h2, min_eq_right (by exact_mod_cast h1),
    max_eq_right (by exact_mod_cast h0), toIntTrunc_intCast]

theorem get?_eq_px (G : Image) (y x : Nat) (hy : y < G.data.length)
    (hx : x < G.data[y].length) (c : Nat) :
    G.get? y x c = G.data[y][x][c]? := by
  unfold Image.get?
  rw [List.getElem?_eq_getElem hy]
  show (G.data[y][x]?).bind (fun px => px[c]?) = _
  rw [List.getElem?_eq_getElem hx]
  rfl

theorem collect_px {f : Int → Int} (px : List Int) (hf : ∀ v ∈ px, f v = v) :
    collect px.length (fun c => (px[c]?).map f) = some px := by
  have hside : ∀ c, c < px.length → (px[c]?).map f = some (px.getD c 0) := by
    intro c hc
    rw [List.getElem?_eq_getElem hc, Option.map_some', hf _ (List.getElem_mem hc),
      List.getD_eq_getElem _ _ hc]
  rw [collect_eq_map _ _ _ hside, map_getD_range]

theorem collect_row {f : Int → Int} (G : Image) (y : Nat) (hy : y < G.data.length)
    (hch : ∀ px ∈ G.data[y], px.length = G.channels)
    (hf : ∀ px ∈ G.data[y], ∀ v ∈ px, f v = v) :
    collect G.data[y].length
      (fun x => collect G.channels (fun c => (G.get? y x c).map f))
      = some G.data[y] := by
  have hside : ∀ x, x < G.data[y].length →
      collect G.channels (fun c => (G.get? y x c).map f)
        = some (G.data[y].getD x []) := by
    intro x hx
    have hmem := List.getElem_mem hx
    have hpx := hch _ hmem
    have hcongr : collect G.channels (fun c => (G.get? y x c).map f)
        = collect G.channels (fun c => (G.data[y][x][c]?).map f) :=
      collect_congr _ _ _ (fun c _ => by rw [get?_eq_px G y x hy hx])
    rw [hcongr, ← hpx, collect_px _ (hf _ hmem), List.getD_eq_getElem _ _ hx]
  rw [collect_eq_map _ _ _ hside, map_getD_range]

theorem read_grid {f : Int → Int} (G : Image) (hWF : G.WF)
    (hf : ∀ row ∈ G.data, ∀ px ∈ row, ∀ v ∈ px, f v = v) :
    collect G.height (fun y => collect G.width (fun x =>
      collect G.channels (fun c => (G.get? y x c).map f))) = some G.data := by
  obtain ⟨hlen, hrows⟩ := hWF
  have hside : ∀ y, y < G.data.length →
      collect G.width (fun x => collect G.channels (fun c => (G.get? y x c).map f))
        = some (G.data.getD y []) := by
    intro y hy
    have hmem := List.getElem_mem hy
    have hrow := hrows _ hmem
    rw [List.getD_eq_getElem _ _ hy, ← hrow.1]
    exact collect_row G y hy hrow.2 (fun px hpx v hv => hf _ hmem px hpx v hv)
  rw [← hlen, collect_eq_map _ _ _ hside, map_getD_range]

theorem read_row_plain (G : Image) (y : Nat) (hy : y < G.data.length)
    (hwidth : G.data[y].length = G.width)
    (hch : ∀ px ∈ G.data[y], px.length = G.channels) :
    collect G.width (fun x => collect G.channels (fun c => G.get? y x c))
      = some G.data[y] := by
  have hcongr : collect G.width (fun x => collect G.channels (fun c => G.get? y x c))
      = collect G.width (fun x =>
          collect G.channels (fun c => (G.get? y x c).map (fun v => v))) :=
    collect_congr _ _ _ (fun x _ => collect_congr _ _ _
      (fun c _ => by cases h : G.get? y x c <;> simp [h]))
  rw [hcongr, ← hwidth]
  exact collect_row G y hy hch (fun _ _ _ _ => rfl)

theorem read_grid_plain (G : Image) (hWF : G.WF) :
    collect G.height (fun y => collect G.width (fun x =>
      collect G.channels (fun c => G.get? y x c))) = some G.data := by
  have hcongr : collect G.height (fun y => collect G.width (fun x =>
      collect G.channels (fun c => G.get? y x c)))
      = collect G.height (fun y => collect G.width (fun x =>
          collect G.channels (fun c => (G.get? y x c).map (fun v => v)))) :=
    collect_congr _ _ _ (fun y _ => collect_congr _ _ _ (fun x _ =>
      collect_congr _ _ _ (fun c _ => by cases h : G.get? y x c <;> simp [h])))
  rw [hcongr]
  exact read_grid G hWF (fun _ _ _ _ _ _ => rfl)

theorem flipHorizontal_eq (G : Image) (hWF : G.WF) :
    flipHorizontal G
      = some (Image.mk G.width G.height G.channels 255 (G.data.map List.reverse)) := by
  obtain ⟨hlen, hrows⟩ := hWF
  unfold flipHorizontal
  have hside : ∀ y, y < G.data.length →
      (collect G.width (fun x =>
        collect G.channels (fun c => G.get? y x c))).map List.reverse
        = some ((G.data.getD y []).reverse) := by
    intro y hy
    have hrow := hrows _ (List.getElem_mem hy)
    rw [read_row_plain G y hy hrow.1 hrow.2, Option.map_some',
      List.getD_eq_getElem _ _ hy]
  rw [← hlen, collect_eq_map _ _ _ hside, Option.map_some',
    map_getD_range_comp ([] : List (List Int)) List.reverse G.data]

theorem flipVertical_eq (G : Image) (hWF : G.WF) :
    flipVertical G
      = some (Image.mk G.width G.height G.channels 255 G.data.reverse) := by
  unfold flipVertical
  rw [read_grid_plain G hWF, Option.map_some']

theorem adjustBrightness_zero_eq (G : Image) (hWF : G.WF) (hIR : G.InRange) :
    adjustBrightness G 0
      = some (Image.mk G.width G.height G.channels 255 G.data) := by
  unfold adjustBrightness
  rw [read_grid G hWF (fun row hrow px hpx v hv =>
    brightVal_zero v (hIR row hrow px hpx v hv).1 (hIR row hrow px hpx v hv).2),
    Option.map_some']

theorem Image.eta (G : Image) (hmax : G.maxVal = 255) :
    Image.mk G.width G.height G.channels 255 G.data = G := by
  cases G with
  | mk w h ch m d =>
    simp only at hmax
    rw [hmax]

theorem WF_map_reverse (G : Image) (hWF : G.WF) :
    (Image.mk G.width G.height G.channels 255 (G.data.map List.reverse)).WF := by
  obtain ⟨hlen, hrows⟩ := hWF
  constructor
  · simpa using hlen
  · intro row hrow
    have hr : row.reverse ∈ G.data := by simpa using hrow
    have hrr := hrows _ hr
    constructor
    · have h1 := hrr.1
      rw [List.length_reverse] at h1
      exact h1
    · intro px hpx
      exact hrr.2 px (List.mem_reverse.mpr hpx)

theorem WF_reverse (G : Image) (hWF : G.WF) :
    (Image.mk G.width G.height G.channels 255 G.data.reverse).WF := by
  obtain ⟨hlen, hrows⟩ := hWF
  constructor
  · simpa using hlen
  · intro row hrow
    exact hrows row (List.mem_reverse.mp (by simpa using hrow))

theorem inRange_of_get? (G : Image) (hIR : G.InRange) (y x c : Nat) (v : Int)
    (h : G.get? y x c = some v) : 0 ≤ v ∧ v ≤ 255 := by
  obtain ⟨row, hrow, px, hpx, hv⟩ := get?_mem G y x c v h
  exact hIR row hrow px hpx v hv

theorem collect_px_map (f : Int → Int) (px : List Int) :
    collect px.length (fun c => (px[c]?).map f) = some (px.map f) := by
  have hside : ∀ c, c < px.length → (px[c]?).map f = some (f (px.getD c 0)) := by
    intro c hc
    rw [List.getElem?_eq_getElem hc, Option.map_some', List.getD_eq_getElem _ _ hc]
  rw [collect_eq_map _ _ _ hside, map_getD_range_comp]

theorem collect_row_map (f : Int → Int) (G : Image) (y : Nat) (hy : y < G.data.length)
    (hch : ∀ px ∈ G.data[y], px.length = G.channels) :
    collect G.data[y].length
      (fun x => collect G.channels (fun c => (G.get? y x c).map f))
      = some (G.data[y].map (List.map f)) := by
  have hside : ∀ x, x < G.data[y].length →
      collect G.channels (fun c => (G.get? y x c).map f)
        = some (List.map f (G.data[y].getD x [])) := by
    intro x hx
    have hpx := hch _ (List.getElem_mem hx)
    have hcongr : collect G.channels (fun c => (G.get? y x c).map f)
        = collect G.channels (fun c => (G.data[y][x][c]?).map f) :=
      collect_congr _ _ _ (fun c _ => by rw [get?_eq_px G y x hy hx])
    rw [hcongr, ← hpx, collect_px_map f _, List.getD_eq_getElem _ _ hx]
  rw [collect_eq_map _ _ _ hside, map_getD_range_comp]

theorem read_grid_map (f : Int → Int) (G : Image) (hWF : G.WF) :
    collect G.height (fun y => collect G.width (fun x =>
      collect G.channels (fun c => (G.get? y x c).map f)))
      = some (G.data.map (List.map (List.map f))) := by
  obtain ⟨hlen, hrows⟩ := hWF
  have hside : ∀ y, y < G.data.length →
      collect G.width (fun x => collect G.channels (fun c => (G.get? y x c).map f))
        = some (List.map (List.map f) (G.data.getD y [])) := by
    intro y hy
    have hrow := hrows _ (List.getElem_mem hy)
    rw [List.getD_eq_getElem _ _ hy, ← hrow.1]
    exact collect_row_map f G y hy hrow.2
  rw [← hlen, collect_eq_map _ _ _ hside, map_getD_range_comp]

theorem mkImage_inRange (w h ch : Nat) : (mkImage w h ch).InRange := by
  intro row hrow px hpx v hv
  have h1 := List.eq_of_mem_replicate hrow
  subst h1
  have h2 := List.eq_of_mem_replicate hpx
  subst h2
  have h3 := List.eq_of_mem_replicate hv
  subst h3
  exact ⟨le_refl 0, by norm_num⟩

theorem adjustBrightness_inRange (G : Image) (value : Int) (out : Image)
    (hout : adjustBrightness G value = some out) : out.InRange := by
  unfold adjustBrightness at hout
  obtain ⟨d, hd, hout2⟩ := Option.map_eq_some'.mp hout
  subst hout2
  intro row hrow px hpx v hv
  obtain ⟨y, hy, h1⟩ := collect_mem _ _ _ hd row hrow
  obtain ⟨x, hx, h2⟩ := collect_mem _ _ _ h1 px hpx
  obtain ⟨c, hc, h3⟩ := collect_mem _ _ _ h2 v hv
  obtain ⟨v0, hv0, h4⟩ := Option.map_eq_some'.mp h3
  rw [← h4]
  exact brightVal_range value v0

theorem convertToGrayscale_inRange (G : Image) (hIR : G.InRange) (out : Image)
    (hout : convertToGrayscale G = some out) : out.InRange := by
  unfold convertToGrayscale at hout
  obtain ⟨d, hd, hout2⟩ := Option.map_eq_some'.mp hout
  subst hout2
  intro row hrow px hpx v hv
  obtain ⟨y, hy, h1⟩ := collect_mem _ _ _ hd row hrow
  obtain ⟨x, hx, h2⟩ := collect_mem _ _ _ h1 px hpx
  obtain ⟨R, hR, h3⟩ := Option.bind_eq_some.mp h2
  obtain ⟨Gv, hG, h4⟩ := Option.bind_eq_some.mp h3
  obtain ⟨B, hB, h5⟩ := Option.map_eq_some'.mp h4
  rw [← h5] at hv
  have hv' : v = grayVal R Gv B := by simpa using hv
  subst hv'
  have hRb := inRange_of_get? G hIR y x 0 R hR
  have hGb := inRange_of_get? G hIR y x 1 Gv hG
  have hBb := inRange_of_get? G hIR y x 2 B hB
  exact grayVal_range R Gv B hRb.1 hRb.2 hGb.1 hGb.2 hBb.1 hBb.2

theorem flipHorizontal_inRange (G : Image) (hIR : G.InRange) (out : Image)
    (hout : flipHorizontal G = some out) : out.InRange := by
  unfold flipHorizontal at hout
  obtain ⟨d, hd, hout2⟩ := Option.map_eq_some'.mp hout
  subst hout2
  intro row hrow px hpx v hv
  obtain ⟨y, hy, h1⟩ := collect_mem _ _ _ hd row hrow
  obtain ⟨r, hr, hrev⟩ := Option.map_eq_some'.mp h1
  subst hrev
  obtain ⟨x, hx, h2⟩ := collect_mem _ _ _ hr px (List.mem_reverse.mp hpx)
  obtain ⟨c, hc, h3⟩ := collect_mem _ _ _ h2 v hv
  exact inRange_of_get? G hIR y x c v h3

theorem flipVertical_inRange (G : Image) (hIR : G.InRange) (out : Image)
    (hout : flipVertical G = some out) : out.InRange := by
  unfold flipVertical at hout
  obtain ⟨d, hd, hout2⟩ := Option.map_eq_some'.mp hout
  subst hout2
  intro row hrow px hpx v hv
  obtain ⟨y, hy, h1⟩ := collect_mem _ _ _ hd row (List.mem_reverse.mp hrow)
  obtain ⟨x, hx, h2⟩ := collect_mem _ _ _ h1 px hpx
  obtain ⟨c, hc, h3⟩ := collect_mem _ _ _ h2 v hv
  exact inRange_of_get? G hIR y x c v h3

theorem adjustContrast_inRange (G : Image) (factor : ℚ) (out : Image)
    (hout : adjustContrast G factor = some out) : out.InRange := by
  unfold adjustContrast at hout
  obtain ⟨d, hd, hout2⟩ := Option.map_eq_some'.mp hout
  subst hout2
  intro row hrow px hpx v hv
  obtain ⟨y, hy, hyeq⟩ := List.mem_map.mp hrow
  rw [← hyeq] at hpx
  obtain ⟨x, hx, hxeq⟩ := List.mem_map.mp hpx
  rw [← hxeq] at hv
  obtain ⟨c, hc, hceq⟩ := List.mem_map.mp hv
  rw [← hceq]
  exact contrastVal_range factor _

/-- C1: the claim states that applyBlur averages each interior 3x3
neighborhood (here floor(9*128/9) = 128 at pixel (1,1) of the all-128
grid blurProbe) and zeroes only the border.  The blur body of the source
is an unimplemented TODO, so the returned grid is entirely zero: the
interior pixel (1,1) of the blurred blurProbe is 0, not 128, although
the input there is 128. -/
theorem applyBlur_interior_not_averaged :
    blurProbe.WF ∧ blurProbe.getD 1 1 0 = 128 ∧ (applyBlur blurProbe).getD 1 1 0 = 0 := by
  decide

/-- C2: rotate90 does swap the dimensions (its only implemented part),
but the pixel-copy loop is an unimplemented TODO: rotating the 1x1 grid
with sample 7 yields sample 0 instead of 7 (so output[col][height-1-row]
is not input[row][col]), and four rotations do not restore the grid. -/
theorem rotate90_stub_refutes_cycle :
    (rotate90 rotProbe).width = rotProbe.height ∧
    (rotate90 rotProbe).height = rotProbe.width ∧
    rotProbe.getD 0 0 0 = 7 ∧ (rotate90 rotProbe).getD 0 0 0 = 0 ∧
    rotate90 (rotate90 (rotate90 (rotate90 rotProbe))) ≠ rotProbe := by
  decide

/-- C3: on the valid 2x1 RGB grid rectProbe, the four reading transforms
other than adjustContrast complete (and applyBlur and rotate90 perform no
element access at all), but adjustContrast fails: its transposed loop
bounds read data[1][0] of a 1-row grid, an out-of-bounds access. -/
theorem transform_safety_fails_for_contrast :
    rectProbe.WF ∧ rectProbe.InRange ∧
    (convertToGrayscale rectProbe).isSome ∧ (flipHorizontal rectProbe).isSome ∧
    (flipVertical rectProbe).isSome ∧ (adjustBrightness rectProbe 50).isSome ∧
    adjustContrast rectProbe 1 = none := by
  decide

/-- C4 counterexample: the grayscale of the green pixel (0,255,0) at row
0, column 1 of the 4x4 test image is not 150: the exact value
0.587*255 = 149.685 truncates to 149 (the double computation of the
source truncates to 149 as well). -/
theorem grayscale_green_not_150 :
    (convertToGrayscale testImage).bind (fun g => g.get? 0 1 0) ≠ some 150 := by
  decide

/-- C4 (amended): row 0 of the grayscale of the 4x4 test image whose row
0 is (255,0,0), (0,255,0), (0,0,255), (255,255,255) is 76, 149, 29, 255:
truncation toward zero of 0.299*R + 0.587*G + 0.114*B gives 149, not
150, for pure green. -/
theorem grayscale_row0_values :
    (convertToGrayscale testImage).map (fun g => g.data.getD 0 []) =
      some [[76], [149], [29], [255]] := by
  decide

/-- C5: adjustContrast at factor 1.0 is not the identity on every valid
grid: on the valid non-square 1x2 grid tallProbe the transposed loop
bounds read out of bounds and no grid is returned at all.  On a square
grid (the 1x1 grid squareProbe) the per-sample rule is the identity and
the grid is reproduced exactly, as the claim intends. -/
theorem adjustContrast_one_not_identity :
    tallProbe.WF ∧ tallProbe.InRange ∧ adjustContrast tallProbe 1 = none ∧
    adjustContrast squareProbe 1 = some squareProbe := by
  refine ⟨by decide, by decide, by decide, ?_⟩
  have h : contrastVal 1 42 = 42 := contrastVal_one 42 (by norm_num) (by norm_num)
  have h2 : adjustContrast squareProbe 1
      = some (Image.mk 1 1 1 255 [[[contrastVal 1 42]]]) := rfl
  rw [h2, h]
  rfl

/-- C6: flipHorizontal and flipVertical are involutions: applying either
flip twice to a valid grid returns exactly the original grid. -/
theorem flips_involutive (G : Image) (h : G.Valid) :
    (flipHorizontal G).bind flipHorizontal = some G ∧
    (flipVertical G).bind flipVertical = some G := by
  obtain ⟨hWF, hmax, _⟩ := h
  constructor
  · rw [flipHorizontal_eq G hWF, Option.some_bind,
      flipHorizontal_eq _ (WF_map_reverse G hWF)]
    show some (Image.mk G.width G.height G.channels 255
      ((G.data.map List.reverse).map List.reverse)) = some G
    rw [List.map_map]
    have hdd : (List.reverse ∘ List.reverse) = (id : List (List Int) → List (List Int)) := by
      funext l
      simp
    rw [hdd, List.map_id, Image.eta G hmax]
  · rw [flipVertical_eq G hWF, Option.some_bind,
      flipVertical_eq _ (WF_reverse G hWF)]
    show some (Image.mk G.width G.height G.channels 255 G.data.reverse.reverse) = some G
    rw [List.reverse_reverse, Image.eta G hmax]

/-- C6 witness: the involution theorem applied to the concrete valid 2x2
RGB grid flipWitnessImg. -/
theorem flips_involutive_witness :
    flipWitnessImg.Valid ∧
      ((flipHorizontal flipWitnessImg).bind flipHorizontal = some flipWitnessImg ∧
       (flipVertical flipWitnessImg).bind flipVertical = some flipWitnessImg) :=
  ⟨by decide, flips_involutive flipWitnessImg (by decide)⟩

/-- C7: adjustBrightness with delta 0 reproduces a valid grid exactly,
and for every integer delta the transform completes on a valid grid and
every sample of its output lies in [0, 255] (the per-sample clamp). -/
theorem brightness_zero_id_and_range (G : Image) (h : G.Valid) :
    adjustBrightness G 0 = some G ∧
    (∀ value : Int, (adjustBrightness G value).isSome) ∧
    ∀ (value : Int) (out : Image), adjustBrightness G value = some out → out.InRange := by
  obtain ⟨hWF, hmax, hIR⟩ := h
  refine ⟨?_, ?_, ?_⟩
  · rw [adjustBrightness_zero_eq G hWF hIR, Image.eta G hmax]
  · intro value
    unfold adjustBrightness
    rw [read_grid_map (brightVal value) G hWF]
    rfl
  · intro value out hout
    exact adjustBrightness_inRange G value out hout

/-- C7 witness: the brightness theorem applied to the concrete valid 2x1
RGB grid brightWitnessImg. -/
theorem brightness_zero_id_and_range_witness :
    brightWitnessImg.Valid ∧
      (adjustBrightness brightWitnessImg 0 = some brightWitnessImg ∧
       (∀ value : Int, (adjustBrightness brightWitnessImg value).isSome) ∧
       ∀ (value : Int) (out : Image),
         adjustBrightness brightWitnessImg value = some out → out.InRange) :=
  ⟨by decide, brightness_zero_id_and_range brightWitnessImg (by decide)⟩

/-- C8: whenever a transform of an in-range grid returns a grid, every
stored sample of that grid lies in [0, 255]: grayscale and the flips
only move or combine in-range samples, brightness and contrast clamp
every stored value, and the blur and rotation stubs return all-zero
grids. -/
theorem transforms_preserve_range (G : Image) (h : G.InRange) :
    (∀ out, convertToGrayscale G = some out → out.InRange) ∧
    (∀ out, flipHorizontal G = some out → out.InRange) ∧
    (∀ out, flipVertical G = some out → out.InRange) ∧
    (∀ (value : Int) (out : Image), adjustBrightness G value = some out → out.InRange) ∧
    (∀ (factor : ℚ) (out : Image), adjustContrast G factor = some out → out.InRange) ∧
    (applyBlur G).InRange ∧ (rotate90 G).InRange :=
  ⟨fun out hout => convertToGrayscale_inRange G h out hout,
   fun out hout => flipHorizontal_inRange G h out hout,
   fun out hout => flipVertical_inRange G h out hout,
   fun value out hout => adjustBrightness_inRange G value out hout,
   fun factor out hout => adjustContrast_inRange G factor out hout,
   mkImage_inRange _ _ _, mkImage_inRange _ _ _⟩

/-- C8 witness: the range-preservation theorem applied to the concrete
in-range 1x2 RGB grid rangeWitnessImg. -/
theorem transforms_preserve_range_witness :
    rangeWitnessImg.InRange ∧
      ((∀ out, convertToGrayscale rangeWitnessImg = some out → out.InRange) ∧
       (∀ out, flipHorizontal rangeWitnessImg = some out → out.InRange) ∧
       (∀ out, flipVertical rangeWitnessImg = some out → out.InRange) ∧
       (∀ (value : Int) (out : Image),
          adjustBrightness rangeWitnessImg value = some out → out.InRange) ∧
       (∀ (factor : ℚ) (out : Image),
          adjustContrast rangeWitnessImg factor = some out → out.InRange) ∧
       (applyBlur rangeWitnessImg).InRange ∧ (rotate90 rangeWitnessImg).InRange) :=
  ⟨by decide, transforms_preserve_range rangeWitnessImg (by decide)⟩

/-- C9: constructing a grid with zero width does not fail: the Image
constructor has no validation and no error path, and produces the
degenerate grid with width 0, height 5 and five empty rows (the
embedding of the constructor is accordingly total).  Moreover a
transform can fail for another reason: adjustContrast on the valid
non-square 3x2 blank grid reads out of bounds. -/
theorem mkImage_no_validation :
    (mkImage 0 5 3).width = 0 ∧ (mkImage 0 5 3).height = 5 ∧
    (mkImage 0 5 3).data = List.replicate 5 [] ∧
    adjustContrast (mkImage 3 2 3) 2 = none := by
  decide

/-- C10: applyBlur returns a grid of the same width, height and channel
count as its input in which every stored sample, border and interior
alike, is 0. -/
theorem applyBlur_zero_grid (G : Image) :
    (applyBlur G).width = G.width ∧ (applyBlur G).height = G.height ∧
    (applyBlur G).channels = G.channels ∧
    ∀ row ∈ (applyBlur G).data, ∀ px ∈ row, ∀ v ∈ px, v = 0 := by
  refine ⟨rfl, rfl, rfl, ?_⟩
  intro row hrow px hpx v hv
  have h1 := List.eq_of_mem_replicate hrow
  subst h1
  have h2 := List.eq_of_mem_replicate hpx
  subst h2
  exact List.eq_of_mem_replicate hv

/-- C10 witness: the all-zero blur theorem applied to the concrete 2x2
grid zeroWitnessImg. -/
theorem applyBlur_zero_grid_witness :
    (applyBlur zeroWitnessImg).width = zeroWitnessImg.width ∧
    (applyBlur zeroWitnessImg).height = zeroWitnessImg.height ∧
    (applyBlur zeroWitnessImg).channels = zeroWitnessImg.channels ∧
    ∀ row ∈ (applyBlur zeroWitnessImg).data, ∀ px ∈ row, ∀ v ∈ px, v = 0 :=
  applyBlur_zero_grid zeroWitnessImg
